import Mathlib

/-!
Verification of the devops-autopilot core pipeline (generate → clean →
validate → persist).  The Go sources are shallowly embedded: strings are
`List Char`, the filesystem is an explicit map `List Char → Option (List Char)`
or an abstract stat oracle, and the external generator / `terraform` CLI /
JSON unmarshaller are environment parameters.  Every definition follows the
corresponding Go function; file/OS effects are made explicit.
-/

deriving instance DecidableEq for Except

namespace Autopilot

/-- Strings are modelled as lists of characters. -/
abbrev Str := List Char

/-- Go `unicode.IsSpace` restricted to the Latin-1 code points the Go
standard library special-cases ('\t'..'\r', ' ', U+0085, U+00A0); higher
Unicode space code points are not modelled. -/
def isGoSpace (c : Char) : Bool :=
  c = ' ' || c = '\t' || c = '\n' || c = '\x0b' || c = '\x0c' || c = '\r' ||
  c = '\x85' || c = '\xa0'

/-- Go `strings.TrimSpace`: drop spaces from both ends. -/
def trimSpace (s : Str) : Str :=
  ((s.dropWhile isGoSpace).reverse.dropWhile isGoSpace).reverse

/-- The fenced-code-block opener naming the terraform language. -/
def fenceTerraform : Str := ("```terraform").data

/-- The fenced-code-block opener naming the hcl language. -/
def fenceHcl : Str := ("```hcl").data

/-- A bare fence marker. -/
def fenceBare : Str := ("```").data

/-- The `\n?` part of the opener regex: drop one optional newline. -/
def dropNewline : Str → Str
  | '\n' :: rest => rest
  | s => s

/-- Effect of `re1.ReplaceAllString(code, "")` for the anchored Go regex
`^`+"```"+`(?:terraform|hcl)\n?` (RE2, no multiline: `^` matches only at the
start of the text, so at most the single leading match is removed; the
language tag is not optional in this regex). -/
def stripLeadingFence (s : Str) : Str :=
  if fenceTerraform.isPrefixOf s then dropNewline (s.drop 12)
  else if fenceHcl.isPrefixOf s then dropNewline (s.drop 6)
  else s

/-- Effect of `re2.ReplaceAllString(cleaned, "")` for the Go regex
"```$" (RE2: `$` matches only at the very end of the text, so only a
closer that is the final three characters is removed). -/
def stripTrailingFence (s : Str) : Str :=
  if fenceBare.isSuffixOf s then s.take (s.length - 3) else s

/-- Shared tail of the sanitizer: trim and reject empty remainders. -/
def finishClean (s : Str) : Except Str Str :=
  let result := trimSpace s
  if result = [] then .error ("cleaned code is empty after processing").data
  else .ok result

/-- Embeds `CleanTerraformCode` (services/terraform_service.go) /
`cleanTerraformCode` (handlers variant): reject empty input, strip the
leading tagged fence, strip the trailing fence, trim, reject empty result. -/
def cleanTerraformCode (code : Str) : Except Str Str :=
  if code = [] then .error ("input code cannot be empty").data
  else finishClean (stripTrailingFence (stripLeadingFence code))

/-- The sanitizer as claim C2 words it: the leading opener *optionally*
names the language, so a bare "```" opener would also be stripped.  Stated
from the claim's words, for comparison with `cleanTerraformCode`. -/
def stripLeadingFenceClaim (s : Str) : Str :=
  if fenceTerraform.isPrefixOf s then dropNewline (s.drop 12)
  else if fenceHcl.isPrefixOf s then dropNewline (s.drop 6)
  else if fenceBare.isPrefixOf s then dropNewline (s.drop 3)
  else s

/-- The whole sanitizer as claim C2 words it. -/
def cleanTerraformCodeClaim (code : Str) : Except Str Str :=
  if code = [] then .error ("input code cannot be empty").data
  else finishClean (stripTrailingFence (stripLeadingFenceClaim code))

/-! ### Filename allocation (`GetNextAvailableFilename`, `SaveTerraformFile`) -/

/-- Go `strings.Fields`: the whitespace-separated tokens of a string.
`cur` accumulates the current token in reverse. -/
def fieldsAux : Str → Str → List Str
  | [], cur => if cur = [] then [] else [cur.reverse]
  | c :: rest, cur =>
    if isGoSpace c then
      if cur = [] then fieldsAux rest [] else cur.reverse :: fieldsAux rest []
    else fieldsAux rest (c :: cur)

/-- Go `strings.Fields`. -/
def fields (s : Str) : List Str := fieldsAux s []

/-- Go `strings.Join(words, "_")`. -/
def joinUnderscore : List Str → Str
  | [] => []
  | [w] => w
  | w :: x :: ws => w ++ '_' :: joinUnderscore (x :: ws)

/-- Character class of the Go regex `[^a-zA-Z0-9_]`: the characters that
survive `re.ReplaceAllString(baseName, "")`. -/
def isWordChar (c : Char) : Bool :=
  ('a' ≤ c && c ≤ 'z') || ('A' ≤ c && c ≤ 'Z') || ('0' ≤ c && c ≤ '9') || c = '_'

/-- Go `strings.ToLower` on the ASCII characters left after the regex strip. -/
def toLowerAscii (c : Char) : Char :=
  if 'A' ≤ c && c ≤ 'Z' then Char.ofNat (c.toNat + 32) else c

/-- Base-name derivation inside `GetNextAvailableFilename`: first 5 fields,
joined with underscores, regex-stripped, lower-cased, with the "generated"
fallback when nothing remains. -/
def sanitizeBaseName (resourceText : Str) : Str :=
  let words := (fields resourceText).take 5
  let baseName := ((joinUnderscore words).filter isWordChar).map toLowerAscii
  if baseName = [] then ("generated").data else baseName

/-- Decimal digit character. -/
def digitChar (n : Nat) : Char := Char.ofNat (48 + n)

/-- Digit-production loop with explicit fuel (structural recursion, so it
reduces on concrete inputs); `fuel` bounds the number of digits. -/
def natToDecAux : Nat → Nat → Str
  | 0, _ => []
  | fuel + 1, n =>
    if n < 10 then [digitChar n]
    else natToDecAux fuel (n / 10) ++ [digitChar (n % 10)]

/-- Decimal rendering of a natural number, the effect of Go
`fmt.Sprintf("%d", index)` for the non-negative loop indices. -/
def natToDec (n : Nat) : Str := natToDecAux (n + 1) n

/-- Outcome of the `os.Stat` existence probe.  `notExist` is the case where
`os.IsNotExist(err)` holds; `found` is a successful stat; `statError` is any
other stat error (I/O, permission), which `os.IsNotExist` also rejects. -/
inductive StatResult where
  | notExist : StatResult
  | found : StatResult
  | statError : StatResult
deriving DecidableEq

/-- `filepath.Join(dir, fmt.Sprintf("%s_%d%s", base, index, ext))` for a
clean directory name, as the repository uses it. -/
def mkFilePath (dir base ext : Str) (index : Nat) : Str :=
  dir ++ '/' :: (base ++ '_' :: (natToDec index ++ ext))

/-- The error of the exhausted probe loop (`maxAttempts` = 10000). -/
def exhaustedMsg : Str := ("failed to find available filename after 10000 attempts").data

/-- The probe loop of `GetNextAvailableFilename`:
`for index := 1; index <= maxAttempts; index++ { ... }` with the remaining
attempts as fuel.  The path is returned exactly when the probe reports
`notExist`; any other outcome moves to the next index. -/
def probeLoop (stat : Str → StatResult) (dir base ext : Str) :
    Nat → Nat → Except Str Str
  | _, 0 => .error exhaustedMsg
  | index, fuel + 1 =>
    if stat (mkFilePath dir base ext index) = .notExist then
      .ok (mkFilePath dir base ext index)
    else probeLoop stat dir base ext (index + 1) fuel

/-- Embeds `GetNextAvailableFilename` (services/terraform_service.go), with
`os.Stat` abstracted into `stat`. -/
def getNextAvailableFilename (stat : Str → StatResult)
    (dir resourceText provider ext : Str) : Except Str Str :=
  if dir = [] then .error ("directory cannot be empty").data
  else if ext = [] then .error ("extension cannot be empty").data
  else if provider = [] then .error ("provider cannot be empty").data
  else
    probeLoop stat dir (provider ++ '_' :: sanitizeBaseName resourceText) ext 1 10000

/-- The path probed/returned for a given index, spelled out. -/
def allocPath (dir provider resourceText ext : Str) (index : Nat) : Str :=
  mkFilePath dir (provider ++ '_' :: sanitizeBaseName resourceText) ext index

/-- A filesystem is a partial map from paths to file contents. -/
abbrev FS := Str → Option Str

/-- The stat oracle a plain filesystem provides: every probe either finds
the file or reports non-existence. -/
def statOfFS (fs : FS) : Str → StatResult :=
  fun p => match fs p with
    | some _ => .found
    | none => .notExist

/-- The output directory hard-coded in `SaveTerraformFile`. -/
def tfGeneratedDir : Str := ("tf-generated-files").data

/-- Embeds `SaveTerraformFile`: ensure the directory (failure abstracted as
`mkdirErr`), allocate a free name, write the file (failure abstracted as
`writeErr`); on success the path and the updated filesystem are returned. -/
def saveTerraformFile (mkdirErr writeErr : Option Str) (fs : FS)
    (code resource provider : Str) : Except Str (Str × FS) :=
  match mkdirErr with
  | some e => .error (("failed to create tf-generated-files directory: ").data ++ e)
  | none =>
    match getNextAvailableFilename (statOfFS fs) tfGeneratedDir resource provider (".tf").data with
    | .error e => .error (("failed to generate unique filename: ").data ++ e)
    | .ok filePath =>
      match writeErr with
      | some e => .error (("failed to write terraform file: ").data ++ e)
      | none => .ok (filePath, fun q => if q = filePath then some code else fs q)

/-- The path `SaveTerraformFile` writes for a given sequence index. -/
def savePath (resource provider : Str) (index : Nat) : Str :=
  allocPath tfGeneratedDir provider resource (".tf").data index

/-- `n` sequential allocate-then-write calls with no intervening deletions:
each call is `SaveTerraformFile` on the filesystem the previous call left.
Returns the written paths in order, or `none` if any call fails. -/
def saveRepeat (code resource provider : Str) : Nat → FS → Option (List Str × FS)
  | 0, fs => some ([], fs)
  | n + 1, fs =>
    match saveTerraformFile none none fs code resource provider with
    | .error _ => none
    | .ok (p, fs') =>
      match saveRepeat code resource provider n fs' with
      | none => none
      | some (ps, fsEnd) => some (p :: ps, fsEnd)

/-! ### Validator adapter (`utils` terraform validation) -/

/-- Embeds `TerraformValidationResult`.  `execTime` (milliseconds, ≥ 0) is a
natural number. -/
structure TerraformValidationResult where
  isValid : Bool
  errors : List Str
  warnings : List Str
  output : Str
  execTime : Nat
deriving DecidableEq

/-- Embeds `TerraformDiagnostic` (only the fields the extraction reads:
severity, summary, detail and the range start position). -/
structure TerraformDiagnostic where
  severity : Str
  summary : Str
  detail : Str
  line : Nat
  column : Nat
deriving DecidableEq

/-- Embeds `TerraformValidateOutput`, the structured document
`terraform validate -json` emits. -/
structure TerraformValidateOutput where
  valid : Bool
  errorCount : Nat
  diagnostics : List TerraformDiagnostic
deriving DecidableEq

/-- The format `fmt.Sprintf("Line %d: %s - %s", ...)` of one diagnostic. -/
def fmtDiag (d : TerraformDiagnostic) : Str :=
  ("Line ").data ++ natToDec d.line ++ (": ").data ++ d.summary ++ (" - ").data ++ d.detail

/-- Embeds `parseJSONErrors`.  `json.Unmarshal` is abstracted: `parsed` is
`none` when unmarshalling the raw output fails and `some doc` when it
succeeds.  The loop over the diagnostics appends one formatted message per
error-severity entry; when that leaves nothing and the document asserts
invalidity, a single generic message with the asserted error count is
produced. -/
def parseJSONErrors (parsed : Option TerraformValidateOutput) (jsonOutput : Str) : List Str :=
  match parsed with
  | none => [("Failed to parse validation output: ").data ++ jsonOutput]
  | some v =>
    let errors := v.diagnostics.foldl
      (fun acc d => if d.severity = ("error").data then acc ++ [fmtDiag d] else acc) []
    if errors = [] ∧ v.valid = false then
      [("Validation failed with ").data ++ natToDec v.errorCount ++ (" errors").data]
    else errors

/-- The marker `strings.Contains(output, "\"valid\": false")` keys on. -/
def validFalseMarker : Str := ("\"valid\": false").data

/-- The wrapper-added prefix excluded by the line fallback. -/
def wrapperPre : Str := ("terraform validate failed:").data

/-- Go `strings.Contains(hay, needle)`: some tail of `hay` starts with
`needle`. -/
def containsSub (needle : Str) : Str → Bool
  | [] => needle.isPrefixOf []
  | c :: rest => needle.isPrefixOf (c :: rest) || containsSub needle rest

/-- Go `strings.Split(output, "\n")`. -/
def splitOnNewline : Str → List Str
  | [] => [[]]
  | c :: rest =>
    if c = '\n' then [] :: splitOnNewline rest
    else
      match splitOnNewline rest with
      | [] => [[c]]
      | h :: t => (c :: h) :: t

/-- The line-by-line fallback of `parseTerraformErrors`: every trimmed
non-blank line that does not start with the wrapper prefix. -/
def fallbackLines (output : Str) : List Str :=
  ((splitOnNewline output).map trimSpace).filter
    (fun line => !(line = [] : Bool) && !(wrapperPre.isPrefixOf line))

/-- Embeds `parseTerraformErrors`: try the structured document when the raw
output carries the validity marker and its extraction yields anything;
otherwise fall back line by line; if still nothing, the whole raw output is
the single error.  `jsonParse` abstracts `json.Unmarshal`. -/
def parseTerraformErrors (jsonParse : Str → Option TerraformValidateOutput)
    (output : Str) : List Str :=
  let jsonErrors :=
    if containsSub validFalseMarker output then parseJSONErrors (jsonParse output) output
    else []
  if jsonErrors ≠ [] then jsonErrors
  else
    let lineErrors := fallbackLines output
    if lineErrors = [] then [output] else lineErrors

/-- Environment of one `ValidateTerraformCode` call: the observable
behaviour of the terraform CLI and of the workspace operations.  Error
fields hold the Go `err.Error()` strings; the wall-clock reading is
abstracted into a single value. -/
structure ValidatorEnv where
  terraformInstalled : Bool
  tempDirErr : Option Str
  initOutput : Str
  initErr : Option Str
  validateOutput : Str
  validateErr : Option Str
  jsonParse : Str → Option TerraformValidateOutput
  elapsed : Nat

/-- The error message of the validator-unavailable outcome. -/
def notInstalledMsg : Str := ("Terraform CLI is not installed or not available in PATH").data

/-- Embeds `ValidateTerraformCode`: missing CLI is a reported (non-error)
invalid result; workspace-creation failure is a hard error; an init failure
is a reported invalid result with a single formatted message; a check-step
failure is a reported invalid result with the extracted diagnostics; a
clean check is a valid result with no errors.  The terraform code itself
only feeds the external process, so it does not appear on the right-hand
sides. -/
def validateTerraformCode (env : ValidatorEnv) (_terraformCode : Str) :
    Except Str TerraformValidationResult :=
  if env.terraformInstalled = false then
    .ok { isValid := false, errors := [notInstalledMsg], warnings := [],
          output := [], execTime := env.elapsed }
  else
    match env.tempDirErr with
    | some e => .error (("failed to create temporary directory: ").data ++ e)
    | none =>
      match env.initErr with
      | some e =>
        .ok { isValid := false, errors := [("Terraform init failed: ").data ++ e],
              warnings := [], output := env.initOutput, execTime := env.elapsed }
      | none =>
        match env.validateErr with
        | some _ =>
          .ok { isValid := false,
                errors := parseTerraformErrors env.jsonParse env.validateOutput,
                warnings := [], output := env.validateOutput, execTime := env.elapsed }
        | none =>
          .ok { isValid := true, errors := [], warnings := [],
                output := env.validateOutput, execTime := env.elapsed }

/-! ### Pipeline orchestrator (`GenerateTerraform` handler and service) -/

/-- Request body of `POST /terraform` after JSON binding. -/
structure TerraformRequest where
  resource : Str
  specs : Str

/-- Environment of one generation request: the generator backend outcome
and the validator/persistence environments. -/
structure PipelineEnv where
  genResult : Except Str Str
  valEnv : ValidatorEnv
  mkdirErr : Option Str
  writeErr : Option Str

/-- Observable outcome of the handler: HTTP status, response fields, and
the list of paths written to the output directory. -/
structure HandlerOutcome where
  status : Nat
  message : Option Str
  terraformCode : Option Str
  validation : Option TerraformValidationResult
  errorMsg : Option Str
  writes : List Str

/-- Embeds `GenerateTerraform` / `GenerateTerraformWithCopilot`
(handlers/provision.go) below the JSON-binding step, composed with
`GenerateAndValidate` of the service layer.  The two variants differ only
in the generator backend (already inside `env.genResult`), the provider
tag and the message texts, so those are parameters. -/
def generateTerraformHandler (provider msgOk msgInvalid : Str)
    (env : PipelineEnv) (fs : FS) (req : TerraformRequest) : HandlerOutcome :=
  if trimSpace req.resource = [] ∨ trimSpace req.specs = [] then
    { status := 400, message := none, terraformCode := none, validation := none,
      errorMsg := some ("Resource and specs fields cannot be empty").data, writes := [] }
  else
    match env.genResult with
    | .error e =>
      { status := 500, message := none, terraformCode := none, validation := none,
        errorMsg := some (("failed to generate terraform code: ").data ++ e), writes := [] }
    | .ok tfCode =>
      if trimSpace tfCode = [] then
        { status := 500, message := none, terraformCode := none, validation := none,
          errorMsg := some ("generated terraform code is empty").data, writes := [] }
      else
        match cleanTerraformCode tfCode with
        | .error e =>
          { status := 500, message := none, terraformCode := none, validation := none,
            errorMsg := some (("failed to clean terraform code: ").data ++ e), writes := [] }
        | .ok cleanedCode =>
          match validateTerraformCode env.valEnv cleanedCode with
          | .error e =>
            { status := 500, message := none, terraformCode := none, validation := none,
              errorMsg := some (("failed to validate terraform code: ").data ++ e),
              writes := [] }
          | .ok validation =>
            if validation.isValid then
              match saveTerraformFile env.mkdirErr env.writeErr fs cleanedCode
                  req.resource provider with
              | .error _ =>
                { status := 500, message := none, terraformCode := none,
                  validation := none,
                  errorMsg := some ("Failed to save terraform file").data, writes := [] }
              | .ok (filePath, _) =>
                { status := 200, message := some msgOk,
                  terraformCode := some cleanedCode, validation := some validation,
                  errorMsg := none, writes := [filePath] }
            else
              { status := 201, message := some msgInvalid,
                terraformCode := some cleanedCode, validation := some validation,
                errorMsg := none, writes := [] }

/-- The OpenAI-backed variant of the handler. -/
def generateTerraform (env : PipelineEnv) (fs : FS) (req : TerraformRequest) :
    HandlerOutcome :=
  generateTerraformHandler ("openai").data
    ("Terraform code generated successfully").data
    ("Terraform code generated with validation errors").data env fs req

/-! ### Health check -/

/-- Response body of `GET /health`. -/
structure HealthResponse where
  healthStatus : Str
deriving DecidableEq

/-- Embeds `HealthCheck` (handlers/provision.go): a constant response, no
effect on any state.  The status text in the source reads
"Service is healthy test". -/
def healthCheck : Nat × HealthResponse :=
  (200, { healthStatus := ("Service is healthy test").data })

/-! ## Helper lemmas -/

theorem probeLoop_eq_error (stat : Str → StatResult) (dir base ext : Str) :
    ∀ (fuel index : Nat),
    (∀ j, index ≤ j → j < index + fuel → stat (mkFilePath dir base ext j) ≠ .notExist) →
    probeLoop stat dir base ext index fuel = .error exhaustedMsg := by
  intro fuel
  induction fuel with
  | zero => intro index _; rfl
  | succ fuel ih =>
    intro index h
    have hcur : stat (mkFilePath dir base ext index) ≠ .notExist :=
      h index (Nat.le_refl _) (by omega)
    simp only [probeLoop, if_neg hcur]
    exact ih (index + 1) (fun j hj1 hj2 => h j (by omega) (by omega))

theorem probeLoop_eq_ok (stat : Str → StatResult) (dir base ext : Str) :
    ∀ (fuel index i : Nat), index ≤ i → i < index + fuel →
    stat (mkFilePath dir base ext i) = .notExist →
    (∀ j, index ≤ j → j < i → stat (mkFilePath dir base ext j) ≠ .notExist) →
    probeLoop stat dir base ext index fuel = .ok (mkFilePath dir base ext i) := by
  intro fuel
  induction fuel with
  | zero => intro index i h1 h2; omega
  | succ fuel ih =>
    intro index i h1 h2 hfree hmin
    rcases Nat.eq_or_lt_of_le h1 with heq | hlt
    · subst heq
      simp only [probeLoop, if_pos hfree]
    · have hcur : stat (mkFilePath dir base ext index) ≠ .notExist :=
        hmin index (Nat.le_refl _) hlt
      simp only [probeLoop, if_neg hcur]
      exact ih (index + 1) i (by omega) (by omega) hfree
        (fun j hj1 hj2 => hmin j (by omega) hj2)

theorem probeLoop_ok_stat (stat : Str → StatResult) (dir base ext : Str) :
    ∀ (fuel index : Nat) (p : Str),
    probeLoop stat dir base ext index fuel = .ok p → stat p = .notExist := by
  intro fuel
  induction fuel with
  | zero => intro index p h; exact absurd h (by simp [probeLoop])
  | succ fuel ih =>
    intro index p h
    by_cases hcur : stat (mkFilePath dir base ext index) = .notExist
    · simp only [probeLoop, if_pos hcur] at h
      cases h; exact hcur
    · simp only [probeLoop, if_neg hcur] at h
      exact ih (index + 1) p h

/-- Decimal decoding, left inverse of `natToDec`. -/
def decVal (s : Str) : Nat := s.foldl (fun acc c => 10 * acc + (c.toNat - 48)) 0

theorem decVal_digit {n : Nat} (h : n < 10) : decVal [digitChar n] = n := by
  interval_cases n <;> rfl

theorem decVal_natToDecAux : ∀ (fuel n : Nat), n < 10 ^ fuel →
    decVal (natToDecAux fuel n) = n := by
  intro fuel
  induction fuel with
  | zero => intro n hn; interval_cases n; rfl
  | succ fuel ih =>
    intro n hn
    by_cases h : n < 10
    · simp only [natToDecAux, if_pos h]
      exact decVal_digit h
    · simp only [natToDecAux, if_neg h]
      have hdiv : n / 10 < 10 ^ fuel := by
        rw [Nat.div_lt_iff_lt_mul (by omega)]
        calc n < 10 ^ (fuel + 1) := hn
        _ = 10 ^ fuel * 10 := by ring
      have hrec := ih (n / 10) hdiv
      show List.foldl _ 0 (natToDecAux fuel (n / 10) ++ [digitChar (n % 10)]) = n
      rw [List.foldl_append]
      have hdig : (digitChar (n % 10)).toNat - 48 = n % 10 := by
        have hm : n % 10 < 10 := Nat.mod_lt _ (by omega)
        set m := n % 10 with hmdef
        interval_cases m <;> rfl
      show 10 * decVal (natToDecAux fuel (n / 10)) + ((digitChar (n % 10)).toNat - 48) = n
      rw [hrec, hdig]
      omega

theorem decVal_natToDec : ∀ n : Nat, decVal (natToDec n) = n := by
  intro n
  exact decVal_natToDecAux (n + 1) n
    (Nat.lt_of_lt_of_le (Nat.lt_pow_self (by omega) n)
      (Nat.pow_le_pow_right (by omega) (by omega)))

theorem natToDec_inj {a b : Nat} (h : natToDec a = natToDec b) : a = b := by
  have := congrArg decVal h
  rwa [decVal_natToDec, decVal_natToDec] at this

theorem mkFilePath_inj (dir base ext : Str) {i j : Nat}
    (h : mkFilePath dir base ext i = mkFilePath dir base ext j) : i = j := by
  unfold mkFilePath at h
  have h1 := List.append_cancel_left h
  have h2 : base ++ '_' :: (natToDec i ++ ext) = base ++ '_' :: (natToDec j ++ ext) :=
    List.cons_injective h1
  have h3 := List.cons_injective (List.append_cancel_left h2)
  exact natToDec_inj (List.append_cancel_right h3)

theorem savePath_inj (resource provider : Str) {i j : Nat}
    (h : savePath resource provider i = savePath resource provider j) : i = j :=
  mkFilePath_inj _ _ _ h

/-! ## Claim C3: filename allocation -/

/-- C3 (amended): with non-empty directory, provider tag and extension,
allocation derives the base name from the first 5 whitespace tokens (joined
by underscores, regex-stripped, lower-cased, "generated" only when nothing —
not even a joining underscore — survives, e.g. for the single symbols-only
token "!!!") and returns `directory/<tag>_<base>_<index><extension>` for the
smallest index in [1, 10000] whose probe reports non-existence, and the
exhaustion error when no probe in that range does. -/
theorem getNextAvailableFilename_spec (stat : Str → StatResult)
    (dir resourceText provider ext : Str)
    (hd : dir ≠ []) (he : ext ≠ []) (hp : provider ≠ []) :
    (∀ i, 1 ≤ i → i ≤ 10000 →
      stat (allocPath dir provider resourceText ext i) = .notExist →
      (∀ j, 1 ≤ j → j < i → stat (allocPath dir provider resourceText ext j) ≠ .notExist) →
      getNextAvailableFilename stat dir resourceText provider ext =
        .ok (allocPath dir provider resourceText ext i))
    ∧ ((∀ i, 1 ≤ i → i ≤ 10000 →
        stat (allocPath dir provider resourceText ext i) ≠ .notExist) →
      getNextAvailableFilename stat dir resourceText provider ext = .error exhaustedMsg)
    ∧ sanitizeBaseName (("!!!").data) = ("generated").data := by
  refine ⟨?_, ?_, by decide⟩
  · intro i h1 h2 hfree hmin
    unfold getNextAvailableFilename
    rw [if_neg hd, if_neg he, if_neg hp]
    exact probeLoop_eq_ok stat dir _ ext 10000 1 i h1 (by omega) hfree
      (fun j hj1 hj2 => hmin j hj1 hj2)
  · intro hall
    unfold getNextAvailableFilename
    rw [if_neg hd, if_neg he, if_neg hp]
    exact probeLoop_eq_error stat dir _ ext 10000 1
      (fun j hj1 hj2 => hall j hj1 (by omega))

/-- C3 witness: on a freshly empty directory the first probe succeeds and
the allocated path spells out the sanitized base name at index 1. -/
theorem getNextAvailableFilename_spec_witness :
    getNextAvailableFilename (fun _ => .notExist) (("d").data) (("EC2 instance").data)
      (("openai").data) ((".tf").data) = .ok (("d/openai_ec2_instance_1.tf").data) := by
  have h := (getNextAvailableFilename_spec (fun _ => .notExist) (("d").data)
    (("EC2 instance").data) (("openai").data) ((".tf").data)
    (by decide) (by decide) (by decide)).1 1 (by decide) (by decide) rfl
    (fun j hj1 hj2 => absurd (Nat.lt_of_le_of_lt hj1 hj2) (Nat.lt_irrefl 1))
  rw [h]
  decide

/-- C3 counterexample: the claim's own example input "!!! ???" does not
yield the base name "generated" — the underscore joining the two tokens
survives the `[^a-zA-Z0-9_]` strip, so the base name is "_" and the first
allocated path is `d/openai___1.tf`, not `d/openai_generated_1.tf`. -/
theorem getNextAvailableFilename_fallback_counterexample :
    sanitizeBaseName (("!!! ???").data) = ("_").data
    ∧ getNextAvailableFilename (fun _ => .notExist) (("d").data) (("!!! ???").data)
        (("openai").data) ((".tf").data) = .ok (("d/openai___1.tf").data)
    ∧ (("_").data : Str) ≠ ("generated").data := by
  refine ⟨by decide, by decide, by decide⟩

/-! ## Claim C10: probe outcomes during allocation -/

/-- C10: allocation returns a path only when the existence probe reports
non-existence; any other probe outcome (a successful stat or a distinct
stat error) skips the index, so a persistent stat error on every index in
[1, 10000] surfaces as the exhaustion failure, not as an I/O error. -/
theorem getNextAvailableFilename_probe_discipline (stat : Str → StatResult)
    (dir resourceText provider ext : Str) :
    (∀ p, getNextAvailableFilename stat dir resourceText provider ext = .ok p →
      stat p = .notExist)
    ∧ (dir ≠ [] → ext ≠ [] → provider ≠ [] →
      (∀ i, 1 ≤ i → i ≤ 10000 →
        stat (allocPath dir provider resourceText ext i) = .statError) →
      getNextAvailableFilename stat dir resourceText provider ext = .error exhaustedMsg) := by
  constructor
  · intro p h
    unfold getNextAvailableFilename at h
    by_cases hd : dir = []
    · rw [if_pos hd] at h; cases h
    · rw [if_neg hd] at h
      by_cases he : ext = []
      · rw [if_pos he] at h; cases h
      · rw [if_neg he] at h
        by_cases hp : provider = []
        · rw [if_pos hp] at h; cases h
        · rw [if_neg hp] at h
          exact probeLoop_ok_stat stat dir _ ext 10000 1 p h
  · intro hd he hp hall
    unfold getNextAvailableFilename
    rw [if_neg hd, if_neg he, if_neg hp]
    refine probeLoop_eq_error stat dir _ ext 10000 1 (fun j hj1 hj2 h => ?_)
    have h2 : stat (mkFilePath dir (provider ++ '_' :: sanitizeBaseName resourceText) ext j) =
        .statError := hall j hj1 (by omega)
    rw [h2] at h
    cases h

/-- C10 witness: with a stat oracle that always reports a non-not-exist
error, allocation fails with the exhaustion message; with one that always
reports non-existence, the returned path indeed probes as non-existing. -/
theorem getNextAvailableFilename_probe_discipline_witness :
    getNextAvailableFilename (fun _ => .statError) (("d").data) (("x").data)
      (("openai").data) ((".tf").data) = .error exhaustedMsg :=
  (getNextAvailableFilename_probe_discipline (fun _ => .statError) (("d").data)
    (("x").data) (("openai").data) ((".tf").data)).2
    (by decide) (by decide) (by decide) (fun i _ _ => rfl)

/-! ## Claim C8: sequential allocate-then-write calls -/

theorem range_succ_map_shift (g : Nat → Str) (n k : Nat) :
    (List.range (n + 1)).map (fun t => g (k + t + 1)) =
    g (k + 1) :: (List.range n).map (fun t => g ((k + 1) + t + 1)) := by
  have hfun : ((fun t => g (k + t + 1)) ∘ Nat.succ) = (fun t => g ((k + 1) + t + 1)) := by
    funext t
    show g (k + (t + 1) + 1) = g ((k + 1) + t + 1)
    congr 1
    omega
  rw [List.range_succ_eq_map, List.map_cons, List.map_map, hfun]

theorem saveRepeat_steps (code resource provider : Str) (hp : provider ≠ []) :
    ∀ (n k : Nat) (fs : FS), k + n ≤ 10000 →
    (∀ j, 1 ≤ j → j ≤ k → fs (savePath resource provider j) = some code) →
    (∀ i, k < i → i ≤ 10000 → fs (savePath resource provider i) = none) →
    ∃ fsEnd, saveRepeat code resource provider n fs =
      some ((List.range n).map (fun t => savePath resource provider (k + t + 1)), fsEnd) := by
  intro n
  induction n with
  | zero => intro k fs _ _ _; exact ⟨fs, by simp [saveRepeat]⟩
  | succ n ih =>
    intro k fs hle h1 h2
    have halloc : getNextAvailableFilename (statOfFS fs) tfGeneratedDir resource provider
        ((".tf").data) = .ok (savePath resource provider (k + 1)) := by
      unfold getNextAvailableFilename
      rw [if_neg (by decide), if_neg (by decide), if_neg hp]
      refine probeLoop_eq_ok _ _ _ _ 10000 1 (k + 1) (by omega) (by omega) ?_ ?_
      · show statOfFS fs (savePath resource provider (k + 1)) = .notExist
        unfold statOfFS
        rw [h2 (k + 1) (by omega) (by omega)]
      · intro j hj1 hj2
        show statOfFS fs (savePath resource provider j) ≠ .notExist
        unfold statOfFS
        rw [h1 j hj1 (by omega)]
        simp
    have hinv1 : ∀ j, 1 ≤ j → j ≤ k + 1 →
        (fun q => if q = savePath resource provider (k + 1) then some code else fs q)
          (savePath resource provider j) = some code := by
      intro j hj1 hj2
      by_cases hq : savePath resource provider j = savePath resource provider (k + 1)
      · rw [hq]
        simp
      · simp only [if_neg hq]
        have hj3 : j ≤ k := by
          rcases Nat.eq_or_lt_of_le hj2 with he | hl
          · subst he
            exact absurd rfl hq
          · omega
        exact h1 j hj1 hj3
    have hinv2 : ∀ i, k + 1 < i → i ≤ 10000 →
        (fun q => if q = savePath resource provider (k + 1) then some code else fs q)
          (savePath resource provider i) = none := by
      intro i hi1 hi2
      have hq : savePath resource provider i ≠ savePath resource provider (k + 1) := by
        intro he
        exact absurd (savePath_inj resource provider he) (by omega)
      simp only [if_neg hq]
      exact h2 i (by omega) hi2
    obtain ⟨fsEnd, hrest⟩ := ih (k + 1)
      (fun q => if q = savePath resource provider (k + 1) then some code else fs q)
      (by omega) hinv1 hinv2
    refine ⟨fsEnd, ?_⟩
    show (match saveTerraformFile none none fs code resource provider with
      | .error _ => none
      | .ok (p, fs') =>
        match saveRepeat code resource provider n fs' with
        | none => none
        | some (ps, fsE) => some (p :: ps, fsE)) = _
    unfold saveTerraformFile
    rw [halloc]
    show (match saveRepeat code resource provider n _ with
      | none => none
      | some (ps, fsE) => some (savePath resource provider (k + 1) :: ps, fsE)) = _
    rw [hrest]
    rw [range_succ_map_shift (savePath resource provider) n k]

/-- C8: for a fixed directory (the hard-coded output directory) and a fixed
derived base name, `N` sequential allocate-then-write calls as
`SaveTerraformFile` performs them, with no intervening deletions and
starting from a directory containing no file for that base name, all
succeed and yield the paths with indices 1, 2, …, N in order — `N` distinct
paths with strictly increasing indices starting at 1. -/
theorem saveTerraformFile_sequential (code resource provider : Str) (N : Nat)
    (fs0 : FS) (hp : provider ≠ []) (hN : N ≤ 10000)
    (h0 : ∀ i, 1 ≤ i → i ≤ 10000 → fs0 (savePath resource provider i) = none) :
    ∃ fsEnd, saveRepeat code resource provider N fs0 =
        some ((List.range N).map (fun t => savePath resource provider (t + 1)), fsEnd)
      ∧ ((List.range N).map (fun t => savePath resource provider (t + 1))).Nodup := by
  obtain ⟨fsEnd, h⟩ := saveRepeat_steps code resource provider hp N 0 fs0 (by omega)
    (fun j hj1 hj2 => absurd (Nat.le_trans hj1 hj2) (by omega)) h0
  have hfun : (fun t => savePath resource provider (0 + t + 1)) =
      (fun t => savePath resource provider (t + 1)) := by
    funext t
    congr 1
    omega
  rw [hfun] at h
  refine ⟨fsEnd, h, ?_⟩
  refine List.Nodup.map ?_ (List.nodup_range N)
  intro a b hab
  have := savePath_inj resource provider hab
  omega

/-- C8 witness: two sequential saves into an initially empty directory
produce the distinct paths at indices 1 and 2. -/
theorem saveTerraformFile_sequential_witness :
    ∃ fsEnd, saveRepeat (("c").data) (("EC2 instance").data) (("openai").data) 2
        (fun _ => none) =
        some ((List.range 2).map
          (fun t => savePath (("EC2 instance").data) (("openai").data) (t + 1)), fsEnd)
      ∧ ((List.range 2).map
          (fun t => savePath (("EC2 instance").data) (("openai").data) (t + 1))).Nodup :=
  saveTerraformFile_sequential (("c").data) (("EC2 instance").data) (("openai").data) 2
    (fun _ => none) (by decide) (by decide) (fun i _ _ => rfl)

/-! ## Claim C2: the sanitizer -/

/-- C2 counterexample: the claim says the leading opener *optionally* names
the language, so on "```\ncode\n```" it would strip the bare opener and
yield "code"; the code's regex requires the tag, leaves the opener in
place, and yields "```\ncode". -/
theorem cleanTerraformCode_counterexample :
    cleanTerraformCode (("```\ncode\n```").data) = .ok (("```\ncode").data)
    ∧ cleanTerraformCodeClaim (("```\ncode\n```").data) = .ok (("code").data)
    ∧ ((("```\ncode").data : Str) ≠ ("code").data) :=
  ⟨by decide, by decide, by decide⟩

/-- C2 (amended): for every non-empty input, the sanitizer strips a leading
fenced-code-block opener only when it names one of the two recognized
languages (terraform or hcl), together with a single optional newline right
after it; a trailing closer at the very end of the text is stripped
independently of the leading marker; the remainder is trimmed; and input
with neither marker passes through unchanged modulo trimming (with empty
remainders reported as errors, as `finishClean` does). -/
theorem cleanTerraformCode_amended (code : Str) (h : code ≠ []) :
    (∀ rest, code = fenceTerraform ++ rest →
      cleanTerraformCode code = finishClean (stripTrailingFence (dropNewline rest)))
    ∧ (∀ rest, code = fenceHcl ++ rest →
      cleanTerraformCode code = finishClean (stripTrailingFence (dropNewline rest)))
    ∧ (fenceTerraform.isPrefixOf code = false → fenceHcl.isPrefixOf code = false →
      (∀ body, code = body ++ fenceBare → cleanTerraformCode code = finishClean body)
      ∧ (fenceBare.isSuffixOf code = false → cleanTerraformCode code = finishClean code)) := by
  refine ⟨?_, ?_, ?_⟩
  · intro rest hrest
    subst hrest
    have hpre : fenceTerraform.isPrefixOf (fenceTerraform ++ rest) = true := by
      rw [List.isPrefixOf_iff_prefix]
      exact List.prefix_append _ _
    have hstrip : stripLeadingFence (fenceTerraform ++ rest) = dropNewline rest := by
      rw [stripLeadingFence, if_pos hpre]
      exact congrArg dropNewline (List.drop_left fenceTerraform rest)
    rw [cleanTerraformCode, if_neg h, hstrip]
  · intro rest hrest
    subst hrest
    have hpre1 : fenceTerraform.isPrefixOf (fenceHcl ++ rest) = false := rfl
    have hpre2 : fenceHcl.isPrefixOf (fenceHcl ++ rest) = true := by
      rw [List.isPrefixOf_iff_prefix]
      exact List.prefix_append _ _
    have hstrip : stripLeadingFence (fenceHcl ++ rest) = dropNewline rest := by
      rw [stripLeadingFence, if_neg (by rw [hpre1]; exact Bool.false_ne_true),
        if_pos hpre2]
      exact congrArg dropNewline (List.drop_left fenceHcl rest)
    rw [cleanTerraformCode, if_neg h, hstrip]
  · intro h1 h2
    have hlead : stripLeadingFence code = code := by
      rw [stripLeadingFence, if_neg (by rw [h1]; exact Bool.false_ne_true),
        if_neg (by rw [h2]; exact Bool.false_ne_true)]
    constructor
    · intro body hbody
      have hsuf : fenceBare.isSuffixOf code = true := by
        rw [List.isSuffixOf_iff_suffix, hbody]
        exact List.suffix_append _ _
      have hlen : code.length - 3 = body.length := by
        rw [hbody]
        simp [List.length_append, fenceBare]
      have htail : stripTrailingFence code = body := by
        rw [stripTrailingFence, if_pos hsuf, hlen, hbody]
        exact List.take_left body fenceBare
      rw [cleanTerraformCode, if_neg h, hlead, htail]
    · intro hsuf
      have htail : stripTrailingFence code = code := by
        rw [stripTrailingFence, if_neg (by rw [hsuf]; exact Bool.false_ne_true)]
      rw [cleanTerraformCode, if_neg h, hlead, htail]

/-- C2 witness: a fully fenced terraform block is unwrapped to its body,
exercising the leading-tag branch of the amended statement. -/
theorem cleanTerraformCode_amended_witness :
    cleanTerraformCode (("```terraform\nresource aws\n```").data) =
      .ok (("resource aws").data) := by
  have h := (cleanTerraformCode_amended (("```terraform\nresource aws\n```").data)
    (by decide)).1 (("\nresource aws\n```").data) (by decide)
  rw [h]
  decide

/-! ## Claim C4: the ValidationResult invariant -/

/-- C4: every `ValidationResult` a validation call returns satisfies
isValid = true → errors = [], on every return path. -/
theorem validateTerraformCode_valid_no_errors (env : ValidatorEnv) (code : Str)
    (r : TerraformValidationResult) (h : validateTerraformCode env code = .ok r)
    (hv : r.isValid = true) : r.errors = [] := by
  unfold validateTerraformCode at h
  by_cases hi : env.terraformInstalled = false
  · rw [if_pos hi] at h
    injection h with h'
    subst h'
    exact Bool.noConfusion hv
  · rw [if_neg hi] at h
    cases htd : env.tempDirErr with
    | some e =>
      rw [htd] at h
      exact Except.noConfusion h
    | none =>
      rw [htd] at h
      cases hie : env.initErr with
      | some e =>
        rw [hie] at h
        injection h with h'
        subst h'
        exact Bool.noConfusion hv
      | none =>
        rw [hie] at h
        cases hve : env.validateErr with
        | some e =>
          rw [hve] at h
          injection h with h'
          subst h'
          exact Bool.noConfusion hv
        | none =>
          rw [hve] at h
          injection h with h'
          subst h'
          rfl

/-- C4 witness: a clean validation run returns the valid result with an
empty error list. -/
theorem validateTerraformCode_valid_no_errors_witness :
    ({ isValid := true, errors := [], warnings := [], output := ("ok").data,
       execTime := 0 } : TerraformValidationResult).errors = [] :=
  validateTerraformCode_valid_no_errors
    ⟨true, none, [], none, ("ok").data, none, fun _ => none, 0⟩ (("x").data)
    { isValid := true, errors := [], warnings := [], output := ("ok").data, execTime := 0 }
    rfl rfl

/-! ## Claim C5: validator unavailable -/

/-- C5: when no terraform executable is discoverable, validation returns a
non-error result with isValid = false and exactly the one message that
describes the missing capability. -/
theorem validateTerraformCode_not_installed (env : ValidatorEnv) (code : Str)
    (h : env.terraformInstalled = false) :
    validateTerraformCode env code =
      .ok { isValid := false, errors := [notInstalledMsg], warnings := [],
            output := [], execTime := env.elapsed } := by
  unfold validateTerraformCode
  rw [h, if_pos rfl]

/-- C5 witness: the missing-CLI environment produces the reported (not
thrown) single-error invalid result. -/
theorem validateTerraformCode_not_installed_witness :
    validateTerraformCode ⟨false, none, [], none, [], none, fun _ => none, 7⟩ (("x").data) =
      .ok { isValid := false, errors := [notInstalledMsg], warnings := [],
            output := [], execTime := 7 } :=
  validateTerraformCode_not_installed
    ⟨false, none, [], none, [], none, fun _ => none, 7⟩ (("x").data) rfl

/-! ## Claim C6: structured diagnostic extraction -/

theorem foldl_errorDiags (l : List TerraformDiagnostic) (acc : List Str) :
    l.foldl (fun acc d => if d.severity = ("error").data then acc ++ [fmtDiag d] else acc) acc
      = acc ++ (l.filter (fun d => decide (d.severity = ("error").data))).map fmtDiag := by
  induction l generalizing acc with
  | nil => simp
  | cons d l ih =>
    by_cases hd : d.severity = ("error").data
    · rw [List.foldl_cons, if_pos hd, ih, List.filter_cons_of_pos (by simpa using hd)]
      simp
    · rw [List.foldl_cons, if_neg hd, ih, List.filter_cons_of_neg (by simpa using hd)]

/-- The example document of the claim: asserts invalidity and carries two
error-severity diagnostics around one warning-severity diagnostic. -/
def exampleErrorDiag1 : TerraformDiagnostic :=
  { severity := ("error").data, summary := ("Unsupported argument").data,
    detail := ("An argument named foo is not expected here").data, line := 3, column := 1 }

/-- The warning-severity diagnostic of the example document. -/
def exampleWarningDiag : TerraformDiagnostic :=
  { severity := ("warning").data, summary := ("Deprecated").data,
    detail := ("This syntax is deprecated").data, line := 5, column := 2 }

/-- The second error-severity diagnostic of the example document. -/
def exampleErrorDiag2 : TerraformDiagnostic :=
  { severity := ("error").data, summary := ("Missing required argument").data,
    detail := ("The argument bar is required").data, line := 7, column := 3 }

/-- The structured document of the claim's scenario. -/
def exampleInvalidDoc : TerraformValidateOutput :=
  { valid := false, errorCount := 2,
    diagnostics := [exampleErrorDiag1, exampleWarningDiag, exampleErrorDiag2] }

/-- C6: on a successfully parsed document, extraction formats exactly the
error-severity diagnostics (in order, warnings excluded) as
"Line N: summary - detail", except that zero qualifying entries on a
document asserting invalidity yield the single generic count message; on
the claim's concrete two-errors-one-warning document exactly the two
formatted error strings are produced. -/
theorem parseJSONErrors_structured (doc : TerraformValidateOutput) (raw : Str) :
    (parseJSONErrors (some doc) raw =
      if (doc.diagnostics.filter (fun d => decide (d.severity = ("error").data))) = []
          ∧ doc.valid = false
      then [("Validation failed with ").data ++ natToDec doc.errorCount ++ (" errors").data]
      else (doc.diagnostics.filter
        (fun d => decide (d.severity = ("error").data))).map fmtDiag)
    ∧ parseJSONErrors (some exampleInvalidDoc) raw =
      [fmtDiag exampleErrorDiag1, fmtDiag exampleErrorDiag2] := by
  constructor
  · simp only [parseJSONErrors]
    rw [foldl_errorDiags doc.diagnostics [], List.nil_append]
    by_cases hc : (doc.diagnostics.filter (fun d => decide (d.severity = ("error").data))) = []
    · rw [hc]
      simp
    · have hm : (doc.diagnostics.filter
          (fun d => decide (d.severity = ("error").data))).map fmtDiag ≠ [] := by
        simpa using hc
      rw [if_neg (fun hand => hm hand.1), if_neg (fun hand => hc hand.1)]
  · rfl

/-! ## Claim C7: the unstructured fallback -/

/-- `json.Unmarshal` failing, as it does on a malformed document such as
the truncated "\x7b\"valid\": false" used below. -/
def unmarshalFail : Str → Option TerraformValidateOutput := fun _ => none

/-- C7 counterexample: on raw output that carries the validity marker but
fails to unmarshal, the code returns the single parse-failure message, not
the line-by-line fallback the claim prescribes (which here would be the
single non-blank line itself). -/
theorem parseTerraformErrors_counterexample :
    parseTerraformErrors unmarshalFail (("\x7b\"valid\": false").data) =
      [("Failed to parse validation output: \x7b\"valid\": false").data]
    ∧ fallbackLines (("\x7b\"valid\": false").data) = [("\x7b\"valid\": false").data]
    ∧ ((("Failed to parse validation output: \x7b\"valid\": false").data : Str) ≠
        ("\x7b\"valid\": false").data) :=
  ⟨by decide, by decide, by decide⟩

/-- C7 (amended): when the structured parse is *absent* (the raw output
lacks the validity marker), or present but yielding no messages, extraction
falls back to one error per trimmed non-blank line that does not carry the
wrapper-added prefix, with the entire raw output as the single error when
that also yields nothing; when the structured parse *fails* to unmarshal,
the single error is the parse-failure message embedding the raw output. -/
theorem parseTerraformErrors_amended (jsonParse : Str → Option TerraformValidateOutput)
    (output : Str) :
    (containsSub validFalseMarker output = false →
      parseTerraformErrors jsonParse output =
        (if fallbackLines output = [] then [output] else fallbackLines output))
    ∧ (containsSub validFalseMarker output = true → jsonParse output = none →
      parseTerraformErrors jsonParse output =
        [("Failed to parse validation output: ").data ++ output])
    ∧ (∀ doc, containsSub validFalseMarker output = true → jsonParse output = some doc →
      parseJSONErrors (some doc) output = [] →
      parseTerraformErrors jsonParse output =
        (if fallbackLines output = [] then [output] else fallbackLines output)) := by
  refine ⟨?_, ?_, ?_⟩
  · intro hmarker
    simp only [parseTerraformErrors, hmarker]
    simp
  · intro hmarker hparse
    simp only [parseTerraformErrors, hmarker, hparse]
    simp [parseJSONErrors]
  · intro doc hmarker hparse hempty
    simp only [parseTerraformErrors, hmarker, hparse, hempty]
    simp

/-- C7 witness: marker-free raw output falls back to its non-blank lines,
here the single line itself. -/
theorem parseTerraformErrors_amended_witness :
    parseTerraformErrors unmarshalFail (("Error: bad").data) = [("Error: bad").data] := by
  have h := (parseTerraformErrors_amended unmarshalFail (("Error: bad").data)).1 (by decide)
  rw [h]
  decide

/-! ## Claim C9: the health endpoint -/

/-- C9: the health endpoint always replies 200 with a constant body and no
side effects, but the body text in the code is "Service is healthy test",
not the documented "Service is healthy". -/
theorem healthCheck_body :
    healthCheck = (200, { healthStatus := ("Service is healthy test").data })
    ∧ ((("Service is healthy test").data : Str) ≠ ("Service is healthy").data) :=
  ⟨rfl, by decide⟩

/-! ## Claim C1: the persistence policy of the validating pipeline -/

/-- C1 (amended): in the validating pipeline variant, once a request
reaches validation and obtains a `ValidationResult`, (a) a file is written
only if the result is valid; (b) an invalid result writes nothing, answers
201 and still returns the cleaned code and the diagnostics; (c) a valid
result whose persistence step succeeds writes exactly the allocated file
and answers 200; (d) a valid result whose persistence step itself fails
(directory creation, allocation or write error) writes nothing and answers
500 — so "written iff valid" holds only up to persistence faults. -/
theorem generateTerraform_persistence (env : PipelineEnv) (fs : FS)
    (req : TerraformRequest) (raw cleaned : Str) (v : TerraformValidationResult)
    (hreq : ¬(trimSpace req.resource = [] ∨ trimSpace req.specs = []))
    (hgen : env.genResult = .ok raw)
    (hraw : ¬trimSpace raw = [])
    (hclean : cleanTerraformCode raw = .ok cleaned)
    (hval : validateTerraformCode env.valEnv cleaned = .ok v) :
    ((generateTerraform env fs req).writes ≠ [] → v.isValid = true)
    ∧ (v.isValid = false →
        (generateTerraform env fs req).writes = []
        ∧ (generateTerraform env fs req).terraformCode = some cleaned
        ∧ (generateTerraform env fs req).validation = some v
        ∧ (generateTerraform env fs req).status = 201)
    ∧ (v.isValid = true → ∀ pfs,
        saveTerraformFile env.mkdirErr env.writeErr fs cleaned req.resource
          (("openai").data) = .ok pfs →
        (generateTerraform env fs req).writes = [pfs.1]
        ∧ (generateTerraform env fs req).status = 200)
    ∧ (v.isValid = true → ∀ e,
        saveTerraformFile env.mkdirErr env.writeErr fs cleaned req.resource
          (("openai").data) = .error e →
        (generateTerraform env fs req).writes = []
        ∧ (generateTerraform env fs req).status = 500) := by
  have hred : generateTerraform env fs req =
      (if v.isValid = true then
        match saveTerraformFile env.mkdirErr env.writeErr fs cleaned req.resource
            (("openai").data) with
        | .error _ =>
          { status := 500, message := none, terraformCode := none, validation := none,
            errorMsg := some ("Failed to save terraform file").data, writes := [] }
        | .ok (filePath, _) =>
          { status := 200, message := some (("Terraform code generated successfully").data),
            terraformCode := some cleaned, validation := some v,
            errorMsg := none, writes := [filePath] }
      else
        { status := 201,
          message := some (("Terraform code generated with validation errors").data),
          terraformCode := some cleaned, validation := some v,
          errorMsg := none, writes := [] }) := by
    simp only [generateTerraform, generateTerraformHandler, if_neg hreq, hgen,
      if_neg hraw, hclean, hval]
  refine ⟨?_, ?_, ?_, ?_⟩
  · intro hw
    by_cases hv : v.isValid = true
    · exact hv
    · rw [hred, if_neg hv] at hw
      exact absurd rfl hw
  · intro hv
    rw [hred, if_neg (by rw [hv]; exact Bool.false_ne_true)]
    exact ⟨rfl, rfl, rfl, rfl⟩
  · intro hv pfs hsave
    rw [hred, if_pos hv, hsave]
    exact ⟨rfl, rfl⟩
  · intro hv e hsave
    rw [hred, if_pos hv, hsave]
    exact ⟨rfl, rfl⟩

/-- A validator environment whose CLI run succeeds, so validation reports a
valid result. -/
def cexValEnv : ValidatorEnv :=
  ⟨true, none, [], none, ("ok").data, none, fun _ => none, 3⟩

/-- A pipeline environment whose generation and validation succeed but
whose output-directory creation fails. -/
def cexPipelineEnv : PipelineEnv :=
  ⟨.ok (("resource aws").data), cexValEnv, some (("disk full").data), none⟩

/-- The request of the concrete scenarios. -/
def cexRequest : TerraformRequest := ⟨("EC2 instance").data, ("t3.micro").data⟩

/-- C1 counterexample: a request that reaches validation with
isValid = true but whose persistence step faults writes no file, so "a file
is written if and only if isValid is true", as the claim states it, fails
in the only-if→if direction. -/
theorem generateTerraform_persistence_counterexample :
    validateTerraformCode cexValEnv (("resource aws").data) =
      .ok { isValid := true, errors := [], warnings := [], output := ("ok").data,
            execTime := 3 }
    ∧ (generateTerraform cexPipelineEnv (fun _ => none) cexRequest).writes = []
    ∧ (generateTerraform cexPipelineEnv (fun _ => none) cexRequest).status = 500 :=
  ⟨rfl, rfl, rfl⟩

/-- A pipeline environment whose validator CLI is missing, producing an
invalid (but reported) validation result. -/
def wPipelineEnv : PipelineEnv :=
  ⟨.ok (("resource aws").data), ⟨false, none, [], none, [], none, fun _ => none, 2⟩,
    none, none⟩

/-- C1 witness: an invalid validation result writes nothing and still
returns the cleaned code with a 201 status. -/
theorem generateTerraform_persistence_witness :
    (generateTerraform wPipelineEnv (fun _ => none) cexRequest).writes = []
    ∧ (generateTerraform wPipelineEnv (fun _ => none) cexRequest).terraformCode =
        some (("resource aws").data)
    ∧ (generateTerraform wPipelineEnv (fun _ => none) cexRequest).status = 201 := by
  have h := (generateTerraform_persistence wPipelineEnv (fun _ => none) cexRequest
    (("resource aws").data) (("resource aws").data)
    { isValid := false, errors := [notInstalledMsg], warnings := [], output := [],
      execTime := 2 }
    (by decide) rfl (by decide) (by decide) rfl).2.1 rfl
  exact ⟨h.1, h.2.1, h.2.2.2⟩

end Autopilot
